import Mathlib

/-!
Verification development for the `call` request-orchestration library.

The definitions below are a shallow embedding of the TypeScript sources:
`src/core/helper.ts` (handler resolution, retry decisions, delay
computation, streaming body reader) and `src/core/url.ts` (the
`createCall`/`request` attempt loop and token handling).  User-supplied
callback functions (handlers, progress hooks) are represented by opaque
numeric identifiers; the JavaScript number type is modelled by `ℚ` for
delay/time quantities; `undefined`/`null` become `Option`.
-/

namespace CallSpec

/-- Model of an `OnStatus` record (`types.ts`): handler entries keyed by a
numeric status code, a symbolic status name, or a range wildcard, plus the
two special event slots and the shared `once` flag.  Handler values are
opaque identifiers. -/
structure OnMap where
  codes : List (Nat × Nat)
  names : List (String × Nat)
  wildcards : List (String × Nat)
  netError : Option Nat
  parsingError : Option Nat
  onceFlag : Option Bool

/-- Lookup of a handler by numeric status code in an `OnMap`. -/
def lookupCode (m : OnMap) (s : Nat) : Option Nat :=
  (m.codes.find? (fun p => p.1 == s)).map (fun p => p.2)

/-- Lookup of a handler by symbolic status name in an `OnMap`. -/
def lookupName (m : OnMap) (s : String) : Option Nat :=
  (m.names.find? (fun p => p.1 == s)).map (fun p => p.2)

/-- Lookup of a handler by range wildcard (e.g. "5xx") in an `OnMap`. -/
def lookupWildcard (m : OnMap) (s : String) : Option Nat :=
  (m.wildcards.find? (fun p => p.1 == s)).map (fun p => p.2)

/-- `statusToWildcard` from `helper.ts`: maps a status code to its
hundred-range wildcard string, e.g. 503 to "5xx". -/
def statusToWildcard (status : Nat) : String :=
  toString (status / 100) ++ "xx"

/-- `StatusCodeByName` from `types.ts`: the table of symbolic status names
and their numeric codes, in declaration order. -/
def statusCodeByName : List (String × Nat) :=
  [("continue", 100), ("switchingProtocols", 101), ("processing", 102),
   ("earlyHints", 103),
   ("ok", 200), ("created", 201), ("accepted", 202),
   ("nonAuthoritativeInformation", 203), ("noContent", 204),
   ("resetContent", 205), ("partialContent", 206), ("multiStatus", 207),
   ("alreadyReported", 208), ("transformationApplied", 214), ("imUsed", 226),
   ("multipleChoices", 300), ("movedPermanently", 301), ("found", 302),
   ("seeOther", 303), ("notModified", 304), ("useProxy", 305),
   ("temporaryRedirect", 307), ("permanentRedirect", 308),
   ("badRequest", 400), ("unauthorized", 401), ("paymentRequired", 402),
   ("forbidden", 403), ("notFound", 404), ("methodNotAllowed", 405),
   ("notAcceptable", 406), ("proxyAuthenticationRequired", 407),
   ("requestTimeout", 408), ("conflict", 409), ("gone", 410),
   ("lengthRequired", 411), ("preconditionFailed", 412),
   ("payloadTooLarge", 413), ("uriTooLong", 414),
   ("unsupportedMediaType", 415), ("rangeNotSatisfiable", 416),
   ("expectationFailed", 417), ("imATeapot", 418),
   ("misdirectedRequest", 421), ("unprocessableEntity", 422),
   ("locked", 423), ("failedDependency", 424), ("tooEarly", 425),
   ("upgradeRequired", 426), ("preconditionRequired", 428),
   ("tooManyRequests", 429), ("requestHeaderFieldsTooLarge", 431),
   ("noResponse", 444), ("blockedByWindowsParentControls", 450),
   ("unavailableForLegalReasons", 451), ("sslCertificateError", 495),
   ("sslCertificateRequired", 496), ("httpRequestSentToHttpsPort", 497),
   ("tokenExpiredInvalid", 498), ("clientClosedRequest", 499),
   ("internalServerError", 500), ("notImplemented", 501),
   ("badGateway", 502), ("serviceUnavailable", 503),
   ("gatewayTimeout", 504), ("httpVersionNotSupported", 505),
   ("variantAlsoNegotiates", 506), ("insufficientStorage", 507),
   ("loopDetected", 508), ("bandwidthLimitExceeded", 509),
   ("notExtended", 510), ("networkAuthenticationRequired", 511),
   ("webServerIsDown", 521), ("connectionTimedOut", 522),
   ("originIsUnreachable", 523), ("sslHandshakeFailed", 525),
   ("siteFrozen", 530), ("networkConnectTimeoutError", 599)]

/-- `codeToName` from `helper.ts`: inverts `statusCodeByName`.  The source
builds the inverse map by iterating the keys in order, so a later entry with
the same code would overwrite an earlier one; the reverse lookup mirrors
that last-write-wins behaviour. -/
def codeToName (status : Nat) : Option String :=
  (statusCodeByName.reverse.find? (fun p => p.2 == status)).map (fun p => p.1)

/-- Selector for the two special (non-status) event slots. -/
inductive SpecialKey where
  | networkError
  | parsingError
deriving DecidableEq

/-- Slot of an `OnMap` addressed by a special event key. -/
def specialSlot (key : SpecialKey) (m : OnMap) : Option Nat :=
  match key with
  | .networkError => m.netError
  | .parsingError => m.parsingError

/-- `pickSpecial` from `helper.ts`: the call-specific slot wins when it holds
a handler, otherwise the config-level slot is used. -/
def pickSpecial (key : SpecialKey) (lo go : OnMap) : Option Nat :=
  match specialSlot key lo with
  | some h => some h
  | none => specialSlot key go

/-- `pickStatusHandler` from `helper.ts`: resolves the handler for a status
code through the tiers
local code / local name, global code / global name, local wildcard, global
wildcard, returning the first hit. -/
def pickStatusHandler (status : Nat) (lo go : OnMap) (table : Nat → Option String) :
    Option Nat :=
  let name := table status
  match (lookupCode lo status).orElse (fun _ => name.bind (lookupName lo)) with
  | some h => some h
  | none =>
    match (lookupCode go status).orElse (fun _ => name.bind (lookupName go)) with
    | some h => some h
    | none =>
      match lookupWildcard lo (statusToWildcard status) with
      | some h => some h
      | none => lookupWildcard go (statusToWildcard status)

/-- Delay field of a retry decision object (`types.ts` `RetryDecision`):
absent, a fixed number, or a function of the attempt index.  A function
result of `none` models a non-finite number (`NaN`/`Infinity`). -/
inductive DelaySpec where
  | noDelay
  | num (v : ℚ)
  | fn (f : Nat → Option ℚ)

/-- `RetryDecision` from `types.ts`: a bare boolean or an object with an
`attempts` count and an optional delay. -/
inductive RetryDecision where
  | bool (b : Bool)
  | obj (attempts : Int) (delay : DelaySpec)

/-- JavaScript `x | 0` on an integral value: two-complement wrap to 32 bits. -/
def toInt32 (n : Int) : Int := (n + 2 ^ 31) % 2 ^ 32 - 2 ^ 31

/-- `allowAndDelayFromDecision` from `helper.ts`.  A missing decision denies
the retry; a boolean decision allows one retry only; an object decision
allows while `attempt < max(0, attempts | 0)` and passes an explicit delay
through (a delay-function value is used only when finite and nonnegative). -/
def allowAndDelayFromDecision (decision : Option RetryDecision) (attempt : Nat) :
    Bool × Option ℚ :=
  match decision with
  | some (.bool b) => (b && decide (attempt < 1), none)
  | some (.obj attempts delay) =>
    if (attempt : Int) < max 0 (toInt32 attempts) then
      match delay with
      | .num v => (true, some v)
      | .fn f =>
        match f attempt with
        | some v => if 0 ≤ v then (true, some v) else (true, none)
        | none => (true, none)
      | .noDelay => (true, none)
    else (false, none)
  | none => (false, none)

/-- Retry decisions keyed by status code, symbolic name or wildcard (the
`onStatus` map of `RetryConfig` in `types.ts`). -/
structure RetryMap where
  codes : List (Nat × RetryDecision)
  names : List (String × RetryDecision)
  wildcards : List (String × RetryDecision)

/-- Lookup of a retry decision by numeric code. -/
def rLookupCode (m : RetryMap) (s : Nat) : Option RetryDecision :=
  (m.codes.find? (fun p => p.1 == s)).map (fun p => p.2)

/-- Lookup of a retry decision by symbolic name. -/
def rLookupName (m : RetryMap) (s : String) : Option RetryDecision :=
  (m.names.find? (fun p => p.1 == s)).map (fun p => p.2)

/-- Lookup of a retry decision by range wildcard. -/
def rLookupWildcard (m : RetryMap) (s : String) : Option RetryDecision :=
  (m.wildcards.find? (fun p => p.1 == s)).map (fun p => p.2)

/-- `decisionFromStatus` from `helper.ts`: numeric code, then symbolic name,
then wildcard, on the config-level `onStatus` map. -/
def decisionFromStatus (status : Nat) (onStatus : Option RetryMap) :
    Option RetryDecision :=
  match onStatus with
  | none => none
  | some m =>
    match rLookupCode m status with
    | some d => some d
    | none =>
      match (codeToName status).bind (rLookupName m) with
      | some d => some d
      | none => rLookupWildcard m (statusToWildcard status)

/-- Parsed body payload as seen by the attempt loop: an abstract rendering of
the value plus the optional `code` property consulted by the suppressed
status-failure result. -/
structure DataVal where
  dataRepr : String
  code : Option String
deriving DecidableEq

/-- Outcome of the body-parse step inside one attempt: either the parse threw
(with an opaque exception identifier) or it produced a payload. -/
inductive ParseOutcome where
  | perr (id : Nat)
  | pok (d : DataVal)
deriving DecidableEq

/-- Response model for the attempt loop: status, status text, the
`retry-after` header value, the redirect flag, and the outcome of parsing
the body. -/
structure Resp where
  status : Nat
  statusText : String
  retryAfter : Option String
  redirected : Bool
  parseResult : ParseOutcome
deriving DecidableEq

/-- Test `/^\d+$/` used by `computeDelay` on the retry-after value. -/
def regexDigits (s : String) : Bool :=
  !s.isEmpty && s.toList.all Char.isDigit

/-- Numeric value of a digit string (`Number(ra)` on a `/^\d+$/` match). -/
def digitsToNat (s : String) : Nat :=
  s.foldl (fun a c => a * 10 + (c.toNat - 48)) 0

/-- Retry-after extraction inside `computeDelay` (`helper.ts` lines
183-188): when the header is honoured and present and nonempty, a digit
string is seconds converted to milliseconds, anything else is parsed as a
date and measured from now; an unparseable date (`NaN`, modelled by
`dateParse` returning `none`) is discarded. -/
def retryAfterValue (now : ℚ) (dateParse : String → Option ℚ)
    (respectRetryAfterHeader : Bool) (response : Option Resp) : Option ℚ :=
  if respectRetryAfterHeader then
    match response.bind Resp.retryAfter with
    | some s =>
      if s.isEmpty then none
      else if regexDigits s then some ((digitsToNat s : ℚ) * 1000)
      else (dateParse s).map (fun t => max 0 (t - now))
    | none => none
  else none

/-- `computeDelay` from `helper.ts`: an explicit delay is clamped to
`[0, maxDelay]`; otherwise a honoured retry-after value is capped at
`maxDelay`; otherwise full-jitter exponential backoff
`floor(rand * backoffBase * 2 ^ attempt)` capped at `maxDelay`.  `rand` is
the `Math.random()` draw, `now` the current time, `dateParse` the
`Date.parse` oracle. -/
def computeDelay (rand now : ℚ) (dateParse : String → Option ℚ) (attempt : Nat)
    (maxDelay : ℚ) (respectRetryAfterHeader : Bool) (backoffBase : ℚ)
    (response : Option Resp) (delay : Option ℚ) : ℚ :=
  match delay with
  | some d => max 0 (min maxDelay d)
  | none =>
    match retryAfterValue now dateParse respectRetryAfterHeader response with
    | some ms => min maxDelay ms
    | none => min maxDelay ((Int.floor (rand * (backoffBase * 2 ^ attempt)) : ℤ) : ℚ)

/-- Every value produced by the retry-after extraction is nonnegative. -/
theorem retryAfterValue_nonneg (now : ℚ) (dateParse : String → Option ℚ)
    (flag : Bool) (response : Option Resp) (v : ℚ)
    (h : retryAfterValue now dateParse flag response = some v) : 0 ≤ v := by
  unfold retryAfterValue at h
  split at h
  · split at h
    · next s _ =>
      split at h
      · exact absurd h (by simp)
      · split at h
        · have hv : ((digitsToNat s : ℚ) * 1000) = v := by
            simpa using h
          rw [← hv]
          positivity
        · rcases Option.map_eq_some'.mp h with ⟨t, _, ht⟩
          rw [← ht]
          exact le_max_left _ _
    · exact absurd h (by simp)
  · exact absurd h (by simp)

/-- One chunk delivered by the incremental reader: its decoded text
contribution and its byte length.  The incremental text decoder of the
source preserves multi-byte boundaries across chunks; the model carries the
decoded contribution per chunk, with the final flush contributing nothing. -/
structure Chunk where
  text : String
  bytes : Nat
deriving DecidableEq

/-- Body of a response as seen by `parseWithReader`: the delivered chunk
sequence, and whether the stream raises an error after delivering them. -/
structure BodyStream where
  chunks : List Chunk
  streamErr : Bool

/-- Shape of the configured global progress channel (`ProgressAPI` in
`types.ts`): which of the three optional hooks exist. -/
structure ProgressAPI where
  hasStart : Bool
  hasSet : Bool
  hasDone : Bool

/-- Response model for the reader: optional incremental body, the parsed
content-length header, the content-type header, and the all-at-once body
representation consumed by `fallbackParse`. -/
structure ReaderResp where
  body : Option BodyStream
  contentLength : Option ℚ
  contentType : Option String
  fullText : String
  fullBytes : Nat

/-- Parse targets (`ParseAs` in `types.ts`). -/
inductive ParseAs where
  | json
  | text
  | blob
  | arrayBuffer
  | formData
  | response
  | stream
deriving DecidableEq

/-- Observable notifications emitted while reading a body: the global
channel start hook, the global channel set hook (with the forwarded percent
or null), the per-call progress callback, and the global channel done hook. -/
inductive PEvent where
  | start
  | apiSet (percent : Option ℚ)
  | onProg (loaded : Nat) (total : Option ℚ) (percent : Option ℚ)
  | done
deriving DecidableEq

/-- Recogniser for the done notification. -/
def isDoneEvent : PEvent → Bool
  | .done => true
  | _ => false

/-- Percent computation per chunk: `total ? min(1, loaded / total) : null`,
where a missing or zero (falsy) total yields null. -/
def percentOf (total : Option ℚ) (loaded : Nat) : Option ℚ :=
  match total with
  | some t => if t = 0 then none else some (min 1 ((loaded : ℚ) / t))
  | none => none

/-- Truthiness of the content-length value (`!total`). -/
def totalFalsy (total : Option ℚ) : Bool :=
  match total with
  | some t => t = 0
  | none => true

/-- Per-chunk notification sequence of the read loop (the block repeated in
each branch of `parseWithReader`): bytes-loaded accumulates, the per-call
callback receives loaded/total/percent, and the enabled global channel
receives the percent (or null). -/
def chunkEvents (hasOnProgress useApi apiHasSet : Bool) (total : Option ℚ) :
    Nat → List Chunk → List PEvent
  | _, [] => []
  | loaded, c :: rest =>
    let loaded2 := loaded + c.bytes
    let percent := percentOf total loaded2
    ((if hasOnProgress then [PEvent.onProg loaded2 total percent] else []) ++
      (if useApi && apiHasSet then [PEvent.apiSet percent] else [])) ++
      chunkEvents hasOnProgress useApi apiHasSet total loaded2 rest

/-- Accumulated decoded text of a chunk list. -/
def textOf (cs : List Chunk) : String :=
  cs.foldl (fun acc c => acc ++ c.text) ""

/-- Accumulated byte count of a chunk list. -/
def totalBytes (cs : List Chunk) : Nat :=
  cs.foldl (fun acc c => acc + c.bytes) 0

/-- Values produced by the body readers. -/
inductive ReadVal where
  | textVal (s : String)
  | jsonVal (j : String)
  | bufVal (size : Nat)
  | blobVal (size : Nat) (ctype : Option String)
  | formDataVal
  | respVal
  | streamVal
  | undef
deriving DecidableEq

/-- Outcome of a body read: a value, a JSON parse throw, or a stream error. -/
inductive ReadOutcome where
  | ok (v : ReadVal)
  | errJson
  | errStream
deriving DecidableEq

/-- `fallbackParse` from `helper.ts`: the all-at-once read used when no
incremental body is available.  `jsonParse` is the `JSON.parse` oracle
(`none` models a throw); an empty JSON text yields `undefined`. -/
def fallbackParse (jsonParse : String → Option String) (res : ReaderResp)
    (parseAs : Option ParseAs) : ReadOutcome :=
  match parseAs with
  | some .json =>
    if res.fullText = "" then .ok .undef
    else
      match jsonParse res.fullText with
      | some j => .ok (.jsonVal j)
      | none => .errJson
  | some .text => .ok (.textVal res.fullText)
  | some .blob => .ok (.blobVal res.fullBytes res.contentType)
  | some .arrayBuffer => .ok (.bufVal res.fullBytes)
  | some .formData => .ok .formDataVal
  | some .response => .ok .respVal
  | some .stream => .ok .streamVal
  | none => .ok (.textVal res.fullText)

/-- `parseWithReader` from `helper.ts`: falls back to `fallbackParse` when
there is no incremental body; otherwise, with the global channel enabled,
emits the start hook and an indeterminate (null) set when no length is
known, reads the chunks with per-chunk notifications, assembles the target
representation (buffer, blob, or accumulated text with JSON parsed only
after the stream completes), and — in a `finally` block — emits the done
hook exactly once whether the read and parse succeeded or threw. -/
def parseWithReader (jsonParse : String → Option String) (res : ReaderResp)
    (parseAs : Option ParseAs) (hasOnProgress useApi : Bool)
    (api : Option ProgressAPI) : ReadOutcome × List PEvent :=
  match res.body with
  | none => (fallbackParse jsonParse res parseAs, [])
  | some b =>
    let total := res.contentLength
    let apiHasStart := (api.map ProgressAPI.hasStart).getD false
    let apiHasSet := (api.map ProgressAPI.hasSet).getD false
    let apiHasDone := (api.map ProgressAPI.hasDone).getD false
    let startEvs :=
      if useApi then
        (if apiHasStart then [PEvent.start] else []) ++
          (if totalFalsy total then
            (if apiHasSet then [PEvent.apiSet none] else []) else [])
      else []
    let bodyEvs := chunkEvents hasOnProgress useApi apiHasSet total 0 b.chunks
    let outcome : ReadOutcome :=
      match parseAs with
      | some .arrayBuffer =>
        if b.streamErr then .errStream else .ok (.bufVal (totalBytes b.chunks))
      | some .blob =>
        if b.streamErr then .errStream
        else .ok (.blobVal (totalBytes b.chunks) res.contentType)
      | _ =>
        if b.streamErr then .errStream
        else
          match parseAs with
          | some .json =>
            if textOf b.chunks = "" then .ok .undef
            else
              match jsonParse (textOf b.chunks) with
              | some j => .ok (.jsonVal j)
              | none => .errJson
          | _ => .ok (.textVal (textOf b.chunks))
    let doneEvs := if useApi && apiHasDone then [PEvent.done] else []
    (outcome, startEvs ++ bodyEvs ++ doneEvs)

/-- The read loop itself never emits a done notification. -/
theorem chunkEvents_done_false (hasOnProgress useApi apiHasSet : Bool)
    (total : Option ℚ) :
    ∀ (cs : List Chunk) (loaded : Nat) (a : PEvent),
      a ∈ chunkEvents hasOnProgress useApi apiHasSet total loaded cs →
      isDoneEvent a = false := by
  intro cs
  induction cs with
  | nil =>
    intro loaded a ha
    simp [chunkEvents] at ha
  | cons c rest ih =>
    intro loaded a ha
    simp only [chunkEvents, List.mem_append] at ha
    rcases ha with (h1 | h1) | h2
    · cases hasOnProgress <;> simp_all [isDoneEvent]
    · cases useApi <;> cases apiHasSet <;> simp_all [isDoneEvent]
    · exact ih _ a h2

/-- C8: whenever the reader runs with the global progress channel enabled and
the channel has a done hook, on a response with an incremental body, the done
hook fires exactly once per read — on success as well as on failure,
including when JSON parsing of the accumulated text throws after the stream
has been consumed. -/
theorem C8_done_exactly_once (jsonParse : String → Option String)
    (res : ReaderResp) (parseAs : Option ParseAs) (hasOnProgress : Bool)
    (api : ProgressAPI) (b : BodyStream)
    (hbody : res.body = some b) (hdone : api.hasDone = true) :
    ((parseWithReader jsonParse res parseAs hasOnProgress true (some api)).2.filter
        isDoneEvent).length = 1 := by
  have hnil :
      (chunkEvents hasOnProgress true api.hasSet res.contentLength 0
          b.chunks).filter isDoneEvent = [] := by
    rw [List.filter_eq_nil_iff]
    intro a ha
    simp [chunkEvents_done_false hasOnProgress true api.hasSet res.contentLength
      b.chunks 0 a ha]
  simp only [parseWithReader, hbody, Option.map_some', Option.getD_some,
    Bool.true_and, if_true]
  rw [List.filter_append, List.filter_append, hnil, hdone]
  split_ifs <;> simp_all [isDoneEvent]

/-- C8 witness: a single-chunk JSON body whose parse throws; the done hook
still fires exactly once. -/
theorem C8_witness :
    ((parseWithReader (fun _ => none)
        ⟨some ⟨[⟨"x", 1⟩], false⟩, some 1, none, "x", 1⟩
        (some .json) true true (some ⟨true, true, true⟩)).2.filter
        isDoneEvent).length = 1 :=
  C8_done_exactly_once (fun _ => none)
    ⟨some ⟨[⟨"x", 1⟩], false⟩, some 1, none, "x", 1⟩
    (some .json) true ⟨true, true, true⟩ ⟨[⟨"x", 1⟩], false⟩ rfl rfl

/-- C2 counterexample: with a negative backoff base (a legal `number` input)
the jitter branch produces a negative delay, outside `[0, maxDelay]` even
though `maxDelay = 10` is nonnegative: the claimed bound does not hold for
every input combination. -/
theorem C2_counterexample :
    computeDelay (1 / 2) 0 (fun _ => none) 0 10 false (-4) none none = -2 ∧
    ¬ 0 ≤ computeDelay (1 / 2) 0 (fun _ => none) 0 10 false (-4) none none := by
  constructor
  · norm_num [computeDelay, retryAfterValue]
  · norm_num [computeDelay, retryAfterValue]

/-- C2 (amended): for nonnegative `maxDelay` and `backoffBase` (and a
`Math.random()` draw, which is nonnegative) the output of `computeDelay` lies
in `[0, maxDelay]` for every input combination; when an explicit numeric
delay is supplied the result is the fixed clamp `max 0 (min maxDelay d)`
regardless of the random draw, and when the retry-after header is honoured
and parses to a finite value the result does not depend on the random draw
either. -/
theorem C2_computeDelay_range_and_determinism :
    (∀ rand now dp attempt maxDelay flag bb resp delay,
      0 ≤ maxDelay → 0 ≤ bb → 0 ≤ rand →
      0 ≤ computeDelay rand now dp attempt maxDelay flag bb resp delay ∧
        computeDelay rand now dp attempt maxDelay flag bb resp delay ≤ maxDelay) ∧
    (∀ rand now dp attempt maxDelay flag bb resp d,
      computeDelay rand now dp attempt maxDelay flag bb resp (some d)
        = max 0 (min maxDelay d)) ∧
    (∀ rand rand' now dp attempt maxDelay bb resp,
      (retryAfterValue now dp true (some resp)).isSome →
      computeDelay rand now dp attempt maxDelay true bb (some resp) none
        = computeDelay rand' now dp attempt maxDelay true bb (some resp) none) := by
  refine ⟨?_, ?_, ?_⟩
  · intro rand now dp attempt maxDelay flag bb resp delay hmd hbb hr
    cases delay with
    | some d =>
      simp only [computeDelay]
      exact ⟨le_max_left _ _, max_le hmd (min_le_left _ _)⟩
    | none =>
      simp only [computeDelay]
      cases h : retryAfterValue now dp flag resp with
      | some ms =>
        have hms := retryAfterValue_nonneg now dp flag resp ms h
        exact ⟨le_min hmd hms, min_le_left _ _⟩
      | none =>
        have hprod : (0 : ℚ) ≤ rand * (bb * 2 ^ attempt) :=
          mul_nonneg hr (mul_nonneg hbb (by positivity))
        have hfl : (0 : ℚ) ≤ ((Int.floor (rand * (bb * 2 ^ attempt)) : ℤ) : ℚ) := by
          exact_mod_cast Int.floor_nonneg.mpr hprod
        exact ⟨le_min hmd hfl, min_le_left _ _⟩
  · intro rand now dp attempt maxDelay flag bb resp d
    rfl
  · intro rand rand' now dp attempt maxDelay bb resp hsome
    rcases Option.isSome_iff_exists.mp hsome with ⟨v, hv⟩
    simp only [computeDelay, hv]

/-- C2 amended-claim witness at concrete inputs. -/
theorem C2_witness :
    (0 ≤ computeDelay (1 / 2) 0 (fun _ => none) 1 30000 true 250 none none ∧
      computeDelay (1 / 2) 0 (fun _ => none) 1 30000 true 250 none none ≤ 30000) ∧
    computeDelay (1 / 2) 0 (fun _ => none) 1 30000 true 250 none (some 77)
      = max 0 (min 30000 77) ∧
    computeDelay (1 / 2) 0 (fun _ => none) 1 30000 true 250
        (some ⟨429, "", some "3", false, .pok ⟨"", none⟩⟩) none
      = computeDelay (1 / 4) 0 (fun _ => none) 1 30000 true 250
          (some ⟨429, "", some "3", false, .pok ⟨"", none⟩⟩) none :=
  ⟨C2_computeDelay_range_and_determinism.1 (1 / 2) 0 (fun _ => none) 1 30000 true 250
      none none (by norm_num) (by norm_num) (by norm_num),
   C2_computeDelay_range_and_determinism.2.1 (1 / 2) 0 (fun _ => none) 1 30000 true 250
      none 77,
   C2_computeDelay_range_and_determinism.2.2 (1 / 2) (1 / 4) 0 (fun _ => none) 1 30000 250
      ⟨429, "", some "3", false, .pok ⟨"", none⟩⟩ (by decide)⟩

/-- C3: `pickStatusHandler` equals the six-tier ordered lookup (local code,
local name, global code, global name, local wildcard, global wildcard), and
in particular a handler registered under the exact code in the per-request
map always wins. -/
theorem C3_handler_precedence :
    (∀ status lo go table,
      pickStatusHandler status lo go table =
        ((lookupCode lo status).orElse fun _ =>
          (((table status).bind (lookupName lo)).orElse fun _ =>
            ((lookupCode go status).orElse fun _ =>
              (((table status).bind (lookupName go)).orElse fun _ =>
                ((lookupWildcard lo (statusToWildcard status)).orElse fun _ =>
                  lookupWildcard go (statusToWildcard status))))))) ∧
    (∀ status lo go table h, lookupCode lo status = some h →
      pickStatusHandler status lo go table = some h) := by
  have main : ∀ status lo go table,
      pickStatusHandler status lo go table =
        ((lookupCode lo status).orElse fun _ =>
          (((table status).bind (lookupName lo)).orElse fun _ =>
            ((lookupCode go status).orElse fun _ =>
              (((table status).bind (lookupName go)).orElse fun _ =>
                ((lookupWildcard lo (statusToWildcard status)).orElse fun _ =>
                  lookupWildcard go (statusToWildcard status)))))) := by
    intro status lo go table
    unfold pickStatusHandler
    cases h1 : lookupCode lo status with
    | some h => simp [Option.orElse]
    | none =>
      cases h2 : (table status).bind (lookupName lo) with
      | some h => simp [h1, h2, Option.orElse]
      | none =>
        cases h3 : lookupCode go status with
        | some h => simp [h1, h2, h3, Option.orElse]
        | none =>
          cases h4 : (table status).bind (lookupName go) with
          | some h => simp [h1, h2, h3, h4, Option.orElse]
          | none =>
            cases h5 : lookupWildcard lo (statusToWildcard status) with
            | some h => simp [h1, h2, h3, h4, h5, Option.orElse]
            | none => simp [h1, h2, h3, h4, h5, Option.orElse]
  refine ⟨main, ?_⟩
  intro status lo go table h hcode
  rw [main]
  simp [hcode, Option.orElse]

/-- Per-request map for the C3 witness: code 500 and wildcard "5xx". -/
def c3lo : OnMap := ⟨[(500, 1)], [], [("5xx", 2)], none, none, none⟩

/-- Config-level map for the C3 witness: code 500 and wildcard "5xx". -/
def c3go : OnMap := ⟨[(500, 3)], [], [("5xx", 4)], none, none, none⟩

/-- C3 witness: with 500 registered at the exact code and at a matching
wildcard in both maps, the per-request exact-code handler is chosen. -/
theorem C3_witness :
    pickStatusHandler 500 c3lo c3go codeToName = some 1 :=
  C3_handler_precedence.2 500 c3lo c3go codeToName 1 rfl

/-- Outcome of one transport invocation: the fetch threw (network failure,
with an opaque exception identifier) or produced a response. -/
inductive TransportR where
  | fail (errId : Nat)
  | resp (r : Resp)
deriving DecidableEq

/-- Failure cause attached to error shapes: the transport exception, the
parse exception, or the string `code` property lifted from a payload. -/
inductive CauseV where
  | exn (id : Nat)
  | parseExn (id : Nat)
  | codeStr (s : String)
deriving DecidableEq

/-- Error field of a suppressed failure result. -/
structure ErrorField where
  message : String
  cause : Option CauseV
deriving DecidableEq

/-- Unfiltered result record as assembled by the loop before `returnFields`
filtering (the opaque headers object is omitted: no claim observes it). -/
structure CallResultM where
  content : Option String
  status : Nat
  statusText : String
  url : String
  ok : Bool
  redirected : Bool
  method : String
  error : Option ErrorField
deriving DecidableEq

/-- Result record after `returnFields` filtering: each field is either kept
or dropped. -/
structure FilteredResult where
  content : Option String
  status : Option Nat
  statusText : Option String
  url : Option String
  ok : Option Bool
  redirected : Option Bool
  method : Option String
  error : Option ErrorField
deriving DecidableEq

/-- `filterFields` from `helper.ts`: the per-call `returnFields` wins when
nonempty, else the config-level list is used; with no list configured the
object is returned unchanged; with a list only the named fields are kept. -/
def filterFields (optsRF configRF : Option (List String)) (r : CallResultM) :
    FilteredResult :=
  let fieldsToReturn :=
    match optsRF with
    | some l => if l.length ≠ 0 then some l else configRF
    | none => configRF
  match fieldsToReturn with
  | none =>
    ⟨r.content, some r.status, some r.statusText, some r.url, some r.ok,
     some r.redirected, some r.method, r.error⟩
  | some l =>
    ⟨if l.contains "content" then r.content else none,
     if l.contains "status" then some r.status else none,
     if l.contains "statusText" then some r.statusText else none,
     if l.contains "url" then some r.url else none,
     if l.contains "ok" then some r.ok else none,
     if l.contains "redirected" then some r.redirected else none,
     if l.contains "method" then some r.method else none,
     if l.contains "error" then r.error else none⟩

/-- `CallError` from `errors.ts`: message plus optional status, url, method,
payload, response, and cause. -/
structure CallErrorM where
  message : String
  status : Option Nat
  url : Option String
  method : Option String
  data : Option String
  response : Option Resp
  cause : Option CauseV
deriving DecidableEq

/-- Final outcome of a logical call: a returned (possibly filtered) result
or a thrown `CallError`. -/
inductive FinalR where
  | res (r : FilteredResult)
  | thrown (e : CallErrorM)
deriving DecidableEq

/-- Handler invocation record: which handler fired on which attempt. -/
structure HEvent where
  attempt : Nat
  handler : Nat
deriving DecidableEq

/-- Trace of a completed logical call: the number of transport invocations,
the url passed to each of them, the handler invocations, the attempt
indices at which a retry was granted, the computed waits, and the final
outcome. -/
structure Trace where
  calls : Nat
  urls : List String
  events : List HEvent
  retries : List Nat
  delays : List ℚ
  result : FinalR
deriving DecidableEq

/-- Per-request constants computed before the attempt loop of `request`
(`url.ts` lines 109-273): the raw url argument and the built final url
(url building itself is an external collaborator), the method and the
retry-eligible method list, body replayability, error suppression, the two
handler maps, the per-call decision override and the three config decision
sources, the delay and budget knobs, and the field-selection lists. -/
structure LoopCfg where
  urlArg : String
  finalUrl : String
  method : String
  retryMethods : List String
  isStreamBody : Bool
  suppress : Bool
  localOn : OnMap
  globalOn : OnMap
  callDecision : Option RetryDecision
  onNetworkError : Option RetryDecision
  onParsingError : Option RetryDecision
  onStatus : Option RetryMap
  backoffBase : ℚ
  maxDelay : ℚ
  respectRetryAfterHeader : Bool
  maxOverallTime : Option ℚ
  optsReturnFields : Option (List String)
  configReturnFields : Option (List String)

/-- `method.toUpperCase()`: character-wise ASCII uppercase of the method
string. -/
def toUpperStr (s : String) : String := ⟨s.data.map Char.toUpper⟩

/-- `methodAllowed` from `url.ts`: the upper-cased method must be in the
retry-eligible set. -/
def methodAllowedB (cfg : LoopCfg) : Bool :=
  cfg.retryMethods.contains (toUpperStr cfg.method)

/-- `canReplayBody` from `url.ts`: a stream-backed body is not replayable. -/
def canReplayBody (cfg : LoopCfg) : Bool := !cfg.isStreamBody

/-- `effectiveOnce` from `url.ts`: per-call once flag, else config-level,
else false. -/
def effectiveOnce (cfg : LoopCfg) : Bool :=
  ((cfg.localOn.onceFlag).orElse (fun _ => cfg.globalOn.onceFlag)).getD false

/-- Environment oracles of one run: elapsed time since `startedAt` at the
top of each attempt, the random draw and current time used by each delay
computation, and the `Date.parse` oracle. -/
structure Env where
  elapsed : Nat → ℚ
  rand : Nat → ℚ
  now : Nat → ℚ
  dateParse : String → Option ℚ

/-- `withinBudget` from `url.ts`: true when no overall budget is configured
(a zero budget is falsy and also disables the check) or the elapsed time is
still below it. -/
def withinBudgetAt (cfg : LoopCfg) (env : Env) (attempt : Nat) : Bool :=
  match cfg.maxOverallTime with
  | none => true
  | some m => if m = 0 then true else decide (env.elapsed attempt < m)

/-- The `Response.ok` flag: status in the 200-299 range. -/
def respOk (status : Nat) : Bool := 200 ≤ status && status ≤ 299

/-- Status-failure message from `url.ts`: the status code followed by the
status text when the latter is nonempty. -/
def statusMessage (r : Resp) : String :=
  "Request failed with " ++ toString r.status ++
    (if r.statusText ≠ "" then " " ++ r.statusText else "")

/-- Delay computation as invoked from the loop at a given attempt. -/
def loopDelay (cfg : LoopCfg) (env : Env) (attempt : Nat)
    (response : Option Resp) (delay : Option ℚ) : ℚ :=
  computeDelay (env.rand attempt) (env.now attempt) env.dateParse attempt
    cfg.maxDelay cfg.respectRetryAfterHeader cfg.backoffBase response delay

/-- Outcome of one loop iteration after its single transport invocation:
either a granted retry (with the handler invocations of this iteration and
the computed wait) or finalization. -/
inductive StepRes where
  | retry (evs : List HEvent) (delay : ℚ)
  | finish (evs : List HEvent) (r : FinalR)
deriving DecidableEq

/-- Network-failure block of the loop (`url.ts` lines 329-377): the
effective decision is the per-call override or `onNetworkError`; the
special handler fires unless the once flag holds and a retry will follow;
a granted retry waits and loops, otherwise the call finalizes into a
suppressed result or a thrown error carrying url, method and cause. -/
def stepNet (cfg : LoopCfg) (env : Env) (attempt : Nat) (errId : Nat)
    (withinBudget : Bool) : StepRes :=
  let decision := cfg.callDecision.orElse (fun _ => cfg.onNetworkError)
  let ad := allowAndDelayFromDecision decision attempt
  let within := methodAllowedB cfg && canReplayBody cfg && withinBudget
  let willRetryNext := within && ad.1
  let evs :=
    match pickSpecial .networkError cfg.localOn cfg.globalOn with
    | some hid =>
      if !effectiveOnce cfg || !willRetryNext then [⟨attempt, hid⟩] else []
    | none => []
  if willRetryNext then
    .retry evs (loopDelay cfg env attempt none ad.2)
  else if cfg.suppress then
    .finish evs (.res (filterFields cfg.optsReturnFields cfg.configReturnFields
      ⟨none, 0, "Network/Abort error", cfg.finalUrl, false, false, cfg.method,
       some ⟨"Network/Abort error", some (.exn errId)⟩⟩))
  else
    .finish evs (.thrown
      ⟨"Network/Abort error", none, some cfg.finalUrl, some cfg.method, none,
       none, some (.exn errId)⟩)

/-- Parse-failure block of the loop (`url.ts` lines 403-457): like the
network block but keyed by `onParsingError`, with the response attached to
the suppressed result and the thrown error. -/
def stepParse (cfg : LoopCfg) (env : Env) (attempt : Nat) (r : Resp)
    (pid : Nat) (withinBudget : Bool) : StepRes :=
  let decision := cfg.callDecision.orElse (fun _ => cfg.onParsingError)
  let ad := allowAndDelayFromDecision decision attempt
  let within := methodAllowedB cfg && canReplayBody cfg && withinBudget
  let willRetryNext := within && ad.1
  let evs :=
    match pickSpecial .parsingError cfg.localOn cfg.globalOn with
    | some hid =>
      if !effectiveOnce cfg || !willRetryNext then [⟨attempt, hid⟩] else []
    | none => []
  if willRetryNext then
    .retry evs (loopDelay cfg env attempt (some r) ad.2)
  else if cfg.suppress then
    .finish evs (.res (filterFields cfg.optsReturnFields cfg.configReturnFields
      ⟨none, r.status,
       (if r.statusText = "" then "Response parse error" else r.statusText),
       cfg.finalUrl, false, r.redirected, cfg.method,
       some ⟨"Response parse error", some (.parseExn pid)⟩⟩))
  else
    .finish evs (.thrown
      ⟨"Response parse error", none, some cfg.finalUrl, some cfg.method, none,
       some r, some (.parseExn pid)⟩)

/-- Success block of the loop (`url.ts` lines 459-489): the resolved status
handler fires unconditionally and the parsed payload is returned in a
filtered ok result. -/
def stepOk (cfg : LoopCfg) (attempt : Nat) (r : Resp) (d : DataVal) : StepRes :=
  let evs :=
    match pickStatusHandler r.status cfg.localOn cfg.globalOn codeToName with
    | some hid => [⟨attempt, hid⟩]
    | none => []
  .finish evs (.res (filterFields cfg.optsReturnFields cfg.configReturnFields
    ⟨some d.dataRepr, r.status, r.statusText, cfg.finalUrl, true, r.redirected,
     cfg.method, none⟩))

/-- Status-failure block of the loop (`url.ts` lines 492-561): the effective
decision is the per-call override or the status-keyed config decision; the
resolved handler fires unless the once flag holds and a retry will follow;
finalization returns a suppressed failure result (whose error cause is the
payload's `code` property when present) or throws.  The thrown error's url
field receives the raw url argument of `request`, not the built final url. -/
def stepStatusFail (cfg : LoopCfg) (env : Env) (attempt : Nat) (r : Resp)
    (d : DataVal) (withinBudget : Bool) : StepRes :=
  let decision := cfg.callDecision.orElse
    (fun _ => decisionFromStatus r.status cfg.onStatus)
  let ad := allowAndDelayFromDecision decision attempt
  let within := methodAllowedB cfg && canReplayBody cfg && withinBudget
  let willRetryNext := within && ad.1
  let evs :=
    match pickStatusHandler r.status cfg.localOn cfg.globalOn codeToName with
    | some hid =>
      if !effectiveOnce cfg || !willRetryNext then [⟨attempt, hid⟩] else []
    | none => []
  if willRetryNext then
    .retry evs (loopDelay cfg env attempt (some r) ad.2)
  else if cfg.suppress then
    .finish evs (.res (filterFields cfg.optsReturnFields cfg.configReturnFields
      ⟨some d.dataRepr, r.status, r.statusText, cfg.finalUrl, false,
       r.redirected, cfg.method,
       some ⟨statusMessage r, (d.code).map CauseV.codeStr⟩⟩))
  else
    .finish evs (.thrown
      ⟨statusMessage r, some r.status, some cfg.urlArg, some cfg.method,
       some d.dataRepr, some r, none⟩)

/-- One iteration of the attempt loop: the budget check at the top, one
transport invocation, then classification into the four outcome blocks. -/
def iterOutcome (cfg : LoopCfg) (env : Env) (attempt : Nat)
    (tres : TransportR) : StepRes :=
  let withinBudget := withinBudgetAt cfg env attempt
  match tres with
  | .fail e => stepNet cfg env attempt e withinBudget
  | .resp r =>
    match r.parseResult with
    | .perr pid => stepParse cfg env attempt r pid withinBudget
    | .pok d =>
      if respOk r.status then stepOk cfg attempt r d
      else stepStatusFail cfg env attempt r d withinBudget

/-- The attempt loop of `request` from attempt index `attempt`, with `fuel`
bounding the number of remaining iterations (`none` means the fuel ran out
before the loop finalized).  Each iteration performs exactly one transport
invocation, always with the built final url. -/
def requestLoop (cfg : LoopCfg) (env : Env) (transport : Nat → TransportR) :
    Nat → Nat → Option Trace
  | _, 0 => none
  | attempt, fuel + 1 =>
    match iterOutcome cfg env attempt (transport attempt) with
    | .retry evs d =>
      (requestLoop cfg env transport (attempt + 1) fuel).map
        (fun t =>
          ⟨t.calls + 1, cfg.finalUrl :: t.urls, evs ++ t.events,
           attempt :: t.retries, d :: t.delays, t.result⟩)
    | .finish evs r =>
      some ⟨1, [cfg.finalUrl], evs, [], [], r⟩

/-- A full logical call starts at attempt index 0. -/
def request (cfg : LoopCfg) (env : Env) (transport : Nat → TransportR)
    (fuel : Nat) : Option Trace :=
  requestLoop cfg env transport 0 fuel

/-- The decision the loop consults for a given transport outcome
(per-call override, else the channel-specific config source). -/
def effDecision (cfg : LoopCfg) (tres : TransportR) : Option RetryDecision :=
  match tres with
  | .fail _ => cfg.callDecision.orElse (fun _ => cfg.onNetworkError)
  | .resp r =>
    match r.parseResult with
    | .perr _ => cfg.callDecision.orElse (fun _ => cfg.onParsingError)
    | .pok _ => cfg.callDecision.orElse
        (fun _ => decisionFromStatus r.status cfg.onStatus)

/-- Status carried by a final outcome: the thrown error's status field, or
the result's status field. -/
def finalStatus : FinalR → Option Nat
  | .thrown e => e.status
  | .res r => r.status

/-- Ok flag of a returned result; none for a thrown error. -/
def resultOk : FinalR → Option Bool
  | .res r => r.ok
  | .thrown _ => none

/-- Url field of a thrown error; none for a returned result. -/
def thrownUrl : FinalR → Option String
  | .thrown e => e.url
  | .res _ => none

/-- Empty handler map. -/
def emptyOn : OnMap := ⟨[], [], [], none, none, none⟩

/-- Environment with zero time, zero random draw and no date parsing, used
by the concrete runs. -/
def zeroEnv : Env := ⟨fun _ => 0, fun _ => 0, fun _ => 0, fun _ => none⟩

/-- The 32-bit wrap of a natural `attempts` value never exceeds the value
itself (clamped below by zero). -/
theorem max0_toInt32_le (n : Nat) : max 0 (toInt32 (n : Int)) ≤ (n : Int) := by
  unfold toInt32
  rw [max_le_iff]
  refine ⟨Int.natCast_nonneg n, ?_⟩
  have e31 : (2 : Int) ^ 31 = 2147483648 := by norm_num
  have e32 : (2 : Int) ^ 32 = 4294967296 := by norm_num
  rw [e31, e32]
  rcases lt_or_le (n : Int) 2147483648 with h | h
  · have h0 : (0 : Int) ≤ (n : Int) + 2147483648 := by positivity
    have h1 : (n : Int) + 2147483648 < 4294967296 := by omega
    rw [Int.emod_eq_of_lt h0 h1]
    omega
  · have h2 : ((n : Int) + 2147483648) % 4294967296 < 4294967296 :=
      Int.emod_lt_of_pos _ (by norm_num)
    omega

/-- A granted object decision implies the attempt index is below the
wrapped `attempts` bound. -/
theorem allow_obj_lt (n : Int) (dl : DelaySpec) (attempt : Nat)
    (h : (allowAndDelayFromDecision (some (.obj n dl)) attempt).1 = true) :
    (attempt : Int) < max 0 (toInt32 n) := by
  simp only [allowAndDelayFromDecision] at h
  split at h
  · assumption
  · simp at h

/-- A retried iteration grants the retry through the effective decision of
its channel. -/
theorem step_retry_allow (cfg : LoopCfg) (env : Env) (attempt : Nat)
    (tres : TransportR) (evs : List HEvent) (d : ℚ)
    (hit : iterOutcome cfg env attempt tres = .retry evs d) :
    (allowAndDelayFromDecision (effDecision cfg tres) attempt).1 = true := by
  cases tres with
  | fail e =>
    simp only [iterOutcome, stepNet] at hit
    simp only [effDecision]
    split at hit
    · next hcond =>
      simp only [Bool.and_eq_true] at hcond
      exact hcond.2
    · split at hit <;> simp at hit
  | resp r =>
    cases hp : r.parseResult with
    | perr pid =>
      simp only [iterOutcome, hp, stepParse] at hit
      simp only [effDecision, hp]
      split at hit
      · next hcond =>
        simp only [Bool.and_eq_true] at hcond
        exact hcond.2
      · split at hit <;> simp at hit
    | pok dta =>
      simp only [iterOutcome, hp] at hit
      simp only [effDecision, hp]
      split at hit
      · simp [stepOk] at hit
      · simp only [stepStatusFail] at hit
        split at hit
        · next hcond =>
          simp only [Bool.and_eq_true] at hcond
          exact hcond.2
        · split at hit <;> simp at hit

/-- A retried iteration passed the body-replayability gate. -/
theorem step_retry_replay (cfg : LoopCfg) (env : Env) (attempt : Nat)
    (tres : TransportR) (evs : List HEvent) (d : ℚ)
    (hit : iterOutcome cfg env attempt tres = .retry evs d) :
    canReplayBody cfg = true := by
  cases tres with
  | fail e =>
    simp only [iterOutcome, stepNet] at hit
    split at hit
    · next hcond =>
      simp only [Bool.and_eq_true] at hcond
      exact hcond.1.1.2
    · split at hit <;> simp at hit
  | resp r =>
    cases hp : r.parseResult with
    | perr pid =>
      simp only [iterOutcome, hp, stepParse] at hit
      split at hit
      · next hcond =>
        simp only [Bool.and_eq_true] at hcond
        exact hcond.1.1.2
      · split at hit <;> simp at hit
    | pok dta =>
      simp only [iterOutcome, hp] at hit
      split at hit
      · simp [stepOk] at hit
      · simp only [stepStatusFail] at hit
        split at hit
        · next hcond =>
          simp only [Bool.and_eq_true] at hcond
          exact hcond.1.1.2
        · split at hit <;> simp at hit

/-- Core bound for C1: with every effective decision an `{attempts: n}`
object, the loop finalizes within `n - attempt + 1` further iterations,
makes at most that many transport calls, and grants retries only at attempt
indices below `n`. -/
theorem requestLoop_bounded (cfg : LoopCfg) (env : Env)
    (transport : Nat → TransportR) (n : Nat) (dl : Nat → DelaySpec)
    (hdec : ∀ k, effDecision cfg (transport k) = some (.obj (n : Int) (dl k))) :
    ∀ fuel attempt, n - attempt + 1 ≤ fuel →
      ∃ t, requestLoop cfg env transport attempt fuel = some t ∧
        t.calls ≤ n - attempt + 1 ∧ (∀ x ∈ t.retries, x < n) := by
  intro fuel
  induction fuel with
  | zero => intro attempt h; omega
  | succ fuel ih =>
    intro attempt _h
    cases hit : iterOutcome cfg env attempt (transport attempt) with
    | finish evs r =>
      refine ⟨⟨1, [cfg.finalUrl], evs, [], [], r⟩, ?_, ?_, ?_⟩
      · simp [requestLoop, hit]
      · show (1 : Nat) ≤ n - attempt + 1
        omega
      · intro x hx
        simp at hx
    | retry evs d =>
      have hallow := step_retry_allow cfg env attempt (transport attempt) evs d hit
      rw [hdec attempt] at hallow
      have hlt := allow_obj_lt (n : Int) (dl attempt) attempt hallow
      have hle := max0_toInt32_le n
      have hatt : attempt < n := by
        have := lt_of_lt_of_le hlt hle
        exact_mod_cast this
      obtain ⟨t, ht, hc, hr⟩ := ih (attempt + 1) (by omega)
      refine ⟨⟨t.calls + 1, cfg.finalUrl :: t.urls, evs ++ t.events,
        attempt :: t.retries, d :: t.delays, t.result⟩, ?_, ?_, ?_⟩
      · simp [requestLoop, hit, ht]
      · show t.calls + 1 ≤ n - attempt + 1
        omega
      · intro x hx
        rcases List.mem_cons.mp hx with rfl | hx2
        · exact hatt
        · exact hr x hx2

/-- Scenario-A policy: config retry `{500: {attempts: 2}}` and defaults. -/
def c1cfg : LoopCfg :=
  ⟨"path", "https://api.test/path", "GET", ["GET", "OPTIONS", "HEAD"], false,
   false, emptyOn, emptyOn, none, none, none,
   some ⟨[(500, .obj 2 .noDelay)], [], []⟩, 250, 30000, true, none, none, none⟩

/-- Transport that always returns a parsed 500 response. -/
def always500 : Nat → TransportR := fun _ =>
  .resp ⟨500, "", none, false, .pok ⟨"body", none⟩⟩

/-- C1: with every effective retry decision an `{attempts: n}` object, a
call finalizes after at most `n + 1` transport invocations and the attempt
counter is below `n` whenever a retry is granted; in particular policy
`{500: {attempts: 2}}` against an always-500 transport makes exactly 3
transport calls and the thrown outcome carries status 500. -/
theorem C1_attempts_bound :
    (∀ (cfg : LoopCfg) (env : Env) (transport : Nat → TransportR)
        (n : Nat) (dl : Nat → DelaySpec),
      (∀ k, effDecision cfg (transport k) = some (.obj (n : Int) (dl k))) →
      ∀ fuel, n + 1 ≤ fuel →
        ∃ t, request cfg env transport fuel = some t ∧
          t.calls ≤ n + 1 ∧ (∀ x ∈ t.retries, x < n)) ∧
    (request c1cfg zeroEnv always500 3).map
        (fun t => (t.calls, finalStatus t.result)) = some (3, some 500) := by
  constructor
  · intro cfg env transport n dl hdec fuel hf
    obtain ⟨t, ht, hc, hr⟩ :=
      requestLoop_bounded cfg env transport n dl hdec fuel 0 (by omega)
    exact ⟨t, ht, by omega, hr⟩
  · rfl

/-- C1 witness: the general bound applied to the scenario-A inputs. -/
theorem C1_witness :
    ∃ t, request c1cfg zeroEnv always500 3 = some t ∧
      t.calls ≤ 2 + 1 ∧ (∀ x ∈ t.retries, x < 2) :=
  C1_attempts_bound.1 c1cfg zeroEnv always500 2 (fun _ => .noDelay)
    (fun _ => rfl) 3 (by omega)

/-- An iteration with a stream-backed body never retries. -/
theorem C7_stream_never_retries (cfg : LoopCfg) (env : Env)
    (transport : Nat → TransportR) (attempt fuel : Nat)
    (hstream : cfg.isStreamBody = true) :
    ∃ t, requestLoop cfg env transport attempt (fuel + 1) = some t ∧
      t.calls = 1 ∧ t.retries = [] ∧ t.urls = [cfg.finalUrl] := by
  cases hX : iterOutcome cfg env attempt (transport attempt) with
  | retry evs d =>
    have := step_retry_replay cfg env attempt (transport attempt) evs d hX
    simp [canReplayBody, hstream] at this
  | finish evs r =>
    exact ⟨⟨1, [cfg.finalUrl], evs, [], [], r⟩, by simp [requestLoop, hX],
      rfl, rfl, rfl⟩

/-- Stream-body config with a maximally permissive per-call decision. -/
def c7cfg : LoopCfg :=
  ⟨"path", "https://api.test/path", "GET", ["GET", "OPTIONS", "HEAD"], true,
   true, emptyOn, emptyOn, some (.obj 5 .noDelay), none, none, none,
   250, 30000, true, none, none, none⟩

/-- C7 witness: stream body, permissive decision, failing transport: one
call, no retries. -/
theorem C7_witness :
    ∃ t, requestLoop c7cfg zeroEnv (fun _ => .fail 0) 0 (0 + 1) = some t ∧
      t.calls = 1 ∧ t.retries = [] ∧ t.urls = [c7cfg.finalUrl] :=
  C7_stream_never_retries c7cfg zeroEnv (fun _ => .fail 0) 0 0 rfl

/-- With no `returnFields` configured, filtering keeps every field. -/
theorem filterFields_none (r : CallResultM) :
    filterFields none none r =
      ⟨r.content, some r.status, some r.statusText, some r.url, some r.ok,
       some r.redirected, some r.method, r.error⟩ := rfl

/-- The status-failure message is never empty. -/
theorem statusMessage_ne_empty (r : Resp) : statusMessage r ≠ "" := by
  unfold statusMessage
  intro h
  have hlen := congrArg String.length h
  rw [String.length_append, String.length_append] at hlen
  have h20 : "Request failed with ".length = 20 := rfl
  have h0 : String.length "" = 0 := rfl
  rw [h20, h0] at hlen
  omega

/-- Shape of every finalized iteration (with default field selection): a
thrown outcome only occurs with suppression off and carries a nonempty
message, a url, the method, and a status or a cause; a returned outcome is
either the ok-true success shape without error field, or the suppressed
failure shape with ok false, the final url, and a nonempty error message. -/
theorem iter_finish_shape (cfg : LoopCfg) (env : Env) (a : Nat)
    (tres : TransportR) (evs : List HEvent) (r : FinalR)
    (hrf1 : cfg.optsReturnFields = none) (hrf2 : cfg.configReturnFields = none)
    (hit : iterOutcome cfg env a tres = .finish evs r) :
    (∀ e, r = .thrown e → cfg.suppress = false ∧ e.message ≠ "" ∧
      e.url.isSome = true ∧ e.method = some cfg.method ∧
      (e.status.isSome = true ∨ e.cause.isSome = true)) ∧
    (∀ fr, r = .res fr → (fr.ok = some true ∧ fr.error = none) ∨
      (cfg.suppress = true ∧ fr.ok = some false ∧ fr.url = some cfg.finalUrl ∧
        ∃ ef, fr.error = some ef ∧ ef.message ≠ "")) := by
  have hm1 : ("Network/Abort error" : String) ≠ "" := by decide
  have hm2 : ("Response parse error" : String) ≠ "" := by decide
  cases tres with
  | fail e0 =>
    simp only [iterOutcome, stepNet, hrf1, hrf2] at hit
    split at hit
    · simp at hit
    · split at hit
      · next hs =>
        cases hit
        constructor
        · intro e he; simp at he
        · intro fr hfr
          injection hfr with hfr
          subst hfr
          exact Or.inr ⟨hs, rfl, rfl, ⟨"Network/Abort error", some (.exn e0)⟩,
            rfl, hm1⟩
      · next hs =>
        cases hit
        constructor
        · intro e he
          injection he with he
          subst he
          exact ⟨Bool.eq_false_iff.mpr hs, hm1, rfl, rfl, Or.inr rfl⟩
        · intro fr hfr; simp at hfr
  | resp r0 =>
    cases hp : r0.parseResult with
    | perr pid =>
      simp only [iterOutcome, hp, stepParse, hrf1, hrf2] at hit
      split at hit
      · simp at hit
      · split at hit
        · next hs =>
          cases hit
          constructor
          · intro e he; simp at he
          · intro fr hfr
            injection hfr with hfr
            subst hfr
            exact Or.inr ⟨hs, rfl, rfl,
              ⟨"Response parse error", some (.parseExn pid)⟩, rfl, hm2⟩
        · next hs =>
          cases hit
          constructor
          · intro e he
            injection he with he
            subst he
            exact ⟨Bool.eq_false_iff.mpr hs, hm2, rfl, rfl, Or.inr rfl⟩
          · intro fr hfr; simp at hfr
    | pok dta =>
      simp only [iterOutcome, hp] at hit
      split at hit
      · simp only [stepOk, hrf1, hrf2] at hit
        cases hit
        constructor
        · intro e he; simp at he
        · intro fr hfr
          injection hfr with hfr
          subst hfr
          exact Or.inl ⟨rfl, rfl⟩
      · simp only [stepStatusFail, hrf1, hrf2] at hit
        split at hit
        · simp at hit
        · split at hit
          · next hs =>
            cases hit
            constructor
            · intro e he; simp at he
            · intro fr hfr
              injection hfr with hfr
              subst hfr
              exact Or.inr ⟨hs, rfl, rfl,
                ⟨statusMessage r0, (dta.code).map CauseV.codeStr⟩, rfl,
                statusMessage_ne_empty r0⟩
          · next hs =>
            cases hit
            constructor
            · intro e he
              injection he with he
              subst he
              exact ⟨Bool.eq_false_iff.mpr hs, statusMessage_ne_empty r0,
                rfl, rfl, Or.inl rfl⟩
            · intro fr hfr; simp at hfr

/-- Exact finalization of a network-failure iteration: the thrown network
error when suppression is off, the suppressed network-failure result when
it is on. -/
theorem iter_finish_net (cfg : LoopCfg) (env : Env) (a : Nat) (errId : Nat)
    (evs : List HEvent) (r : FinalR)
    (hit : iterOutcome cfg env a (.fail errId) = .finish evs r) :
    (cfg.suppress = false → r = .thrown ⟨"Network/Abort error", none,
      some cfg.finalUrl, some cfg.method, none, none, some (.exn errId)⟩) ∧
    (cfg.suppress = true → r = .res (filterFields cfg.optsReturnFields
      cfg.configReturnFields ⟨none, 0, "Network/Abort error", cfg.finalUrl,
      false, false, cfg.method,
      some ⟨"Network/Abort error", some (.exn errId)⟩⟩)) := by
  simp only [iterOutcome, stepNet] at hit
  split at hit
  · simp at hit
  · split at hit
    · next hs =>
      cases hit
      refine ⟨fun hf => ?_, fun _ => rfl⟩
      rw [hf] at hs
      exact absurd hs (by decide)
    · next hs =>
      cases hit
      exact ⟨fun _ => rfl, fun ht => absurd ht hs⟩

/-- Exact finalization of a parse-failure iteration: the thrown parse error
when suppression is off, the suppressed parse-failure result when it is
on. -/
theorem iter_finish_parse (cfg : LoopCfg) (env : Env) (a : Nat) (r0 : Resp)
    (pid : Nat) (evs : List HEvent) (r : FinalR)
    (hp : r0.parseResult = .perr pid)
    (hit : iterOutcome cfg env a (.resp r0) = .finish evs r) :
    (cfg.suppress = false → r = .thrown ⟨"Response parse error", none,
      some cfg.finalUrl, some cfg.method, none, some r0,
      some (.parseExn pid)⟩) ∧
    (cfg.suppress = true → r = .res (filterFields cfg.optsReturnFields
      cfg.configReturnFields ⟨none, r0.status,
      (if r0.statusText = "" then "Response parse error" else r0.statusText),
      cfg.finalUrl, false, r0.redirected, cfg.method,
      some ⟨"Response parse error", some (.parseExn pid)⟩⟩)) := by
  simp only [iterOutcome, hp, stepParse] at hit
  split at hit
  · simp at hit
  · split at hit
    · next hs =>
      cases hit
      refine ⟨fun hf => ?_, fun _ => rfl⟩
      rw [hf] at hs
      exact absurd hs (by decide)
    · next hs =>
      cases hit
      exact ⟨fun _ => rfl, fun ht => absurd ht hs⟩

/-- Exact finalization of a status-failure iteration: the thrown status
error (whose url field is the raw url argument) when suppression is off,
the suppressed status-failure result when it is on. -/
theorem iter_finish_status (cfg : LoopCfg) (env : Env) (a : Nat) (r0 : Resp)
    (d : DataVal) (evs : List HEvent) (r : FinalR)
    (hp : r0.parseResult = .pok d) (hnok : respOk r0.status = false)
    (hit : iterOutcome cfg env a (.resp r0) = .finish evs r) :
    (cfg.suppress = false → r = .thrown ⟨statusMessage r0, some r0.status,
      some cfg.urlArg, some cfg.method, some d.dataRepr, some r0, none⟩) ∧
    (cfg.suppress = true → r = .res (filterFields cfg.optsReturnFields
      cfg.configReturnFields ⟨some d.dataRepr, r0.status, r0.statusText,
      cfg.finalUrl, false, r0.redirected, cfg.method,
      some ⟨statusMessage r0, (d.code).map CauseV.codeStr⟩⟩)) := by
  simp only [iterOutcome, hp] at hit
  split at hit
  · next hok =>
    rw [hnok] at hok
    exact absurd hok (by decide)
  · simp only [stepStatusFail] at hit
    split at hit
    · simp at hit
    · split at hit
      · next hs =>
        cases hit
        refine ⟨fun hf => ?_, fun _ => rfl⟩
        rw [hf] at hs
        exact absurd hs (by decide)
      · next hs =>
        cases hit
        exact ⟨fun _ => rfl, fun ht => absurd ht hs⟩

/-- Every completed run makes at least one transport call. -/
theorem requestLoop_calls_pos (cfg : LoopCfg) (env : Env)
    (transport : Nat → TransportR) (attempt fuel : Nat) (t : Trace)
    (hrun : requestLoop cfg env transport attempt fuel = some t) :
    1 ≤ t.calls := by
  cases fuel with
  | zero => simp [requestLoop] at hrun
  | succ fuel =>
    rw [requestLoop] at hrun
    cases hit : iterOutcome cfg env attempt (transport attempt) with
    | retry evs d =>
      rw [hit] at hrun
      simp only [] at hrun
      rcases Option.map_eq_some'.mp hrun with ⟨t2, _, rfl⟩
      exact Nat.le_add_left 1 t2.calls
    | finish evs r =>
      rw [hit] at hrun
      simp only [] at hrun
      have ht : t = ⟨1, [cfg.finalUrl], evs, [], [], r⟩ := by
        injection hrun with h
        exact h.symm
      subst ht
      exact Nat.le_refl 1

/-- A completed run finalizes on the transport outcome of its last attempt,
whose index is the starting attempt plus the number of calls minus one. -/
theorem requestLoop_last_step (cfg : LoopCfg) (env : Env)
    (transport : Nat → TransportR) :
    ∀ (fuel attempt : Nat) (t : Trace),
      requestLoop cfg env transport attempt fuel = some t →
      ∃ evs, iterOutcome cfg env (attempt + (t.calls - 1))
          (transport (attempt + (t.calls - 1))) = .finish evs t.result := by
  intro fuel
  induction fuel with
  | zero =>
    intro attempt t hrun
    simp [requestLoop] at hrun
  | succ fuel ih =>
    intro attempt t hrun
    rw [requestLoop] at hrun
    cases hit : iterOutcome cfg env attempt (transport attempt) with
    | retry evs d =>
      rw [hit] at hrun
      simp only [] at hrun
      rcases Option.map_eq_some'.mp hrun with ⟨t2, h2, rfl⟩
      have hpos : 1 ≤ t2.calls :=
        requestLoop_calls_pos cfg env transport (attempt + 1) fuel t2 h2
      obtain ⟨evs2, h3⟩ := ih (attempt + 1) t2 h2
      show ∃ evs, iterOutcome cfg env (attempt + (t2.calls + 1 - 1))
        (transport (attempt + (t2.calls + 1 - 1))) = .finish evs t2.result
      have harith : attempt + (t2.calls + 1 - 1) = attempt + 1 + (t2.calls - 1) := by
        omega
      rw [harith]
      exact ⟨evs2, h3⟩
    | finish evs r =>
      rw [hit] at hrun
      simp only [] at hrun
      have ht : t = ⟨1, [cfg.finalUrl], evs, [], [], r⟩ := by
        injection hrun with h
        exact h.symm
      subst ht
      exact ⟨evs, by simpa using hit⟩

/-- C6: raises-iff across all three failure channels, conditioned on the
failure that exhausts the retries.  A completed run finalizes on the
transport outcome of its last attempt, at index `attempt + (calls - 1)`.
When that outcome is a network failure, a parse failure, or a non-success
status, then with suppression off the call throws exactly the CallError of
that channel — message, url, method and, as applicable, status, response
and cause — and with suppression on it never throws and instead resolves to
exactly the result with ok false whose error field carries the same message
and cause (under default field selection). -/
theorem C6_raises_iff (cfg : LoopCfg) (env : Env)
    (transport : Nat → TransportR) (attempt fuel : Nat) (t : Trace)
    (hrun : requestLoop cfg env transport attempt fuel = some t)
    (hrf1 : cfg.optsReturnFields = none) (hrf2 : cfg.configReturnFields = none) :
    (∀ errId, transport (attempt + (t.calls - 1)) = .fail errId →
      (cfg.suppress = false → t.result = .thrown ⟨"Network/Abort error", none,
        some cfg.finalUrl, some cfg.method, none, none, some (.exn errId)⟩) ∧
      (cfg.suppress = true → t.result = .res ⟨none, some 0,
        some "Network/Abort error", some cfg.finalUrl, some false, some false,
        some cfg.method, some ⟨"Network/Abort error", some (.exn errId)⟩⟩)) ∧
    (∀ r0 pid, transport (attempt + (t.calls - 1)) = .resp r0 →
      r0.parseResult = .perr pid →
      (cfg.suppress = false → t.result = .thrown ⟨"Response parse error",
        none, some cfg.finalUrl, some cfg.method, none, some r0,
        some (.parseExn pid)⟩) ∧
      (cfg.suppress = true → t.result = .res ⟨none, some r0.status,
        some (if r0.statusText = "" then "Response parse error"
          else r0.statusText),
        some cfg.finalUrl, some false, some r0.redirected, some cfg.method,
        some ⟨"Response parse error", some (.parseExn pid)⟩⟩)) ∧
    (∀ r0 d, transport (attempt + (t.calls - 1)) = .resp r0 →
      r0.parseResult = .pok d → respOk r0.status = false →
      (cfg.suppress = false → t.result = .thrown ⟨statusMessage r0,
        some r0.status, some cfg.urlArg, some cfg.method, some d.dataRepr,
        some r0, none⟩) ∧
      (cfg.suppress = true → t.result = .res ⟨some d.dataRepr, some r0.status,
        some r0.statusText, some cfg.finalUrl, some false, some r0.redirected,
        some cfg.method,
        some ⟨statusMessage r0, (d.code).map CauseV.codeStr⟩⟩)) ∧
    (cfg.suppress = true → ∀ e, t.result ≠ .thrown e) := by
  obtain ⟨evsL, hlast⟩ := requestLoop_last_step cfg env transport fuel attempt t hrun
  refine ⟨?_, ?_, ?_, ?_⟩
  · intro errId hfail
    rw [hfail] at hlast
    have hc := iter_finish_net cfg env (attempt + (t.calls - 1)) errId evsL
      t.result hlast
    refine ⟨hc.1, fun hs => ?_⟩
    rw [hc.2 hs, hrf1, hrf2]
    rfl
  · intro r0 pid hresp hp
    rw [hresp] at hlast
    have hc := iter_finish_parse cfg env (attempt + (t.calls - 1)) r0 pid evsL
      t.result hp hlast
    refine ⟨hc.1, fun hs => ?_⟩
    rw [hc.2 hs, hrf1, hrf2]
    rfl
  · intro r0 d hresp hp hnok
    rw [hresp] at hlast
    have hc := iter_finish_status cfg env (attempt + (t.calls - 1)) r0 d evsL
      t.result hp hnok hlast
    refine ⟨hc.1, fun hs => ?_⟩
    rw [hc.2 hs, hrf1, hrf2]
    rfl
  · intro hs e he
    have hshape := iter_finish_shape cfg env (attempt + (t.calls - 1))
      (transport (attempt + (t.calls - 1))) evsL t.result hrf1 hrf2 hlast
    have hfalse := (hshape.1 e he).1
    rw [hs] at hfalse
    exact absurd hfalse (by decide)

/-- Suppression-off client with no handlers and a failing transport,
used by the C6 witness. -/
def c6cfg : LoopCfg :=
  ⟨"path", "https://api.test/path", "GET", ["GET", "OPTIONS", "HEAD"], false,
   false, emptyOn, emptyOn, none, none, none, none, 250, 30000, true, none,
   none, none⟩

/-- Trace of the C6 witness run: one network failure, thrown. -/
def c6trace : Trace :=
  ⟨1, ["https://api.test/path"], [], [], [],
   .thrown ⟨"Network/Abort error", none, some "https://api.test/path",
     some "GET", none, none, some (.exn 0)⟩⟩

/-- C6 witness: the raises-iff applied to a concrete one-attempt
network-failure run with suppression off. -/
theorem C6_witness :
    (∀ errId, TransportR.fail 0 = .fail errId →
      (c6cfg.suppress = false → c6trace.result = .thrown
        ⟨"Network/Abort error", none, some c6cfg.finalUrl, some c6cfg.method,
         none, none, some (.exn errId)⟩) ∧
      (c6cfg.suppress = true → c6trace.result = .res ⟨none, some 0,
        some "Network/Abort error", some c6cfg.finalUrl, some false,
        some false, some c6cfg.method,
        some ⟨"Network/Abort error", some (.exn errId)⟩⟩)) ∧
    (∀ r0 pid, TransportR.fail 0 = .resp r0 → r0.parseResult = .perr pid →
      (c6cfg.suppress = false → c6trace.result = .thrown
        ⟨"Response parse error", none, some c6cfg.finalUrl,
         some c6cfg.method, none, some r0, some (.parseExn pid)⟩) ∧
      (c6cfg.suppress = true → c6trace.result = .res ⟨none, some r0.status,
        some (if r0.statusText = "" then "Response parse error"
          else r0.statusText),
        some c6cfg.finalUrl, some false, some r0.redirected,
        some c6cfg.method,
        some ⟨"Response parse error", some (.parseExn pid)⟩⟩)) ∧
    (∀ r0 d, TransportR.fail 0 = .resp r0 → r0.parseResult = .pok d →
      respOk r0.status = false →
      (c6cfg.suppress = false → c6trace.result = .thrown ⟨statusMessage r0,
        some r0.status, some c6cfg.urlArg, some c6cfg.method,
        some d.dataRepr, some r0, none⟩) ∧
      (c6cfg.suppress = true → c6trace.result = .res ⟨some d.dataRepr,
        some r0.status, some r0.statusText, some c6cfg.finalUrl, some false,
        some r0.redirected, some c6cfg.method,
        some ⟨statusMessage r0, (d.code).map CauseV.codeStr⟩⟩)) ∧
    (c6cfg.suppress = true → ∀ e, c6trace.result ≠ .thrown e) :=
  C6_raises_iff c6cfg zeroEnv (fun _ => .fail 0) 0 1 c6trace rfl rfl rfl

/-- C4: with decision `{attempts: 1}` for the failing status, the shared
once flag set, the method retry-eligible, the body replayable and the time
budget never exceeded, a transport returning that non-success status on
every attempt fires the registered handler for it exactly once over the
whole call — on the second (final) attempt, never on the first. -/
theorem C4_terminal_attempt_firing (cfg : LoopCfg) (env : Env) (r : Resp)
    (d : DataVal) (dl : DelaySpec) (hid : Nat)
    (honce : effectiveOnce cfg = true)
    (hmeth : methodAllowedB cfg = true)
    (hreplay : cfg.isStreamBody = false)
    (hbudget : ∀ k, withinBudgetAt cfg env k = true)
    (hcd : cfg.callDecision = none)
    (hdec : decisionFromStatus r.status cfg.onStatus = some (.obj 1 dl))
    (hparse : r.parseResult = .pok d)
    (hnok : respOk r.status = false)
    (hhandler : pickStatusHandler r.status cfg.localOn cfg.globalOn codeToName
      = some hid) :
    ∃ t, requestLoop cfg env (fun _ => .resp r) 0 2 = some t ∧
      t.events = [⟨1, hid⟩] ∧ t.calls = 2 ∧ t.retries = [0] := by
  have hdecEff : cfg.callDecision.orElse
      (fun _ => decisionFromStatus r.status cfg.onStatus)
      = some (.obj 1 dl) := by
    rw [hcd]
    simpa [Option.orElse] using hdec
  have hcan : canReplayBody cfg = true := by simp [canReplayBody, hreplay]
  have hallow0 : (allowAndDelayFromDecision (some (.obj 1 dl)) 0).1 = true := by
    simp only [allowAndDelayFromDecision]
    rw [if_pos (by decide : ((0 : Nat) : Int) < max 0 (toInt32 1))]
    cases dl with
    | noDelay => rfl
    | num v => rfl
    | fn f =>
      dsimp only
      cases hf : f 0 with
      | none => rfl
      | some v =>
        dsimp only
        split <;> rfl
  have had1 : allowAndDelayFromDecision (some (.obj 1 dl)) 1 = (false, none) := by
    simp only [allowAndDelayFromDecision]
    rw [if_neg (by decide : ¬ (((1 : Nat) : Int) < max 0 (toInt32 1)))]
  have h0 : iterOutcome cfg env 0 (.resp r)
      = .retry [] (loopDelay cfg env 0 (some r)
          (allowAndDelayFromDecision (some (.obj 1 dl)) 0).2) := by
    simp only [iterOutcome, hparse, hnok, stepStatusFail, hdecEff, hbudget,
      hmeth, hcan, hallow0, honce, hhandler, Bool.true_and, Bool.and_true,
      Bool.and_self, Bool.not_true, Bool.false_or, Bool.or_false]
    simp
  have h1 : ∃ rr, iterOutcome cfg env 1 (.resp r) = .finish [⟨1, hid⟩] rr := by
    simp only [iterOutcome, hparse, hnok, stepStatusFail, hdecEff,
      hbudget, hmeth, hcan, honce, hhandler]
    rcases Bool.eq_false_or_eq_true cfg.suppress with hsup | hsup <;>
      simp only [hsup] <;> exact ⟨_, rfl⟩
  obtain ⟨rr, h1⟩ := h1
  show ∃ t, requestLoop cfg env (fun _ => .resp r) 0 (1 + 1) = some t ∧
      t.events = [⟨1, hid⟩] ∧ t.calls = 2 ∧ t.retries = [0]
  refine ⟨⟨2, [cfg.finalUrl, cfg.finalUrl], [⟨1, hid⟩], [0],
    [loopDelay cfg env 0 (some r)
      (allowAndDelayFromDecision (some (.obj 1 dl)) 0).2], rr⟩,
    ?_, rfl, rfl, rfl⟩
  simp [requestLoop, h0, h1]

/-- Client for the C4 witness: local handler 9 on 500 with once flag, config
decision `{500: {attempts: 1}}`. -/
def c4cfg : LoopCfg :=
  ⟨"path", "https://api.test/path", "GET", ["GET", "OPTIONS", "HEAD"], false,
   false, ⟨[(500, 9)], [], [], none, none, some true⟩, emptyOn,
   none, none, none, some ⟨[(500, .obj 1 .noDelay)], [], []⟩,
   250, 30000, true, none, none, none⟩

/-- Response for the C4 witness: parsed 500. -/
def c4resp : Resp := ⟨500, "", none, false, .pok ⟨"b", none⟩⟩

/-- C4 witness: the terminal-attempt firing at the concrete 500 scenario. -/
theorem C4_witness :
    ∃ t, requestLoop c4cfg zeroEnv (fun _ => .resp c4resp) 0 2 = some t ∧
      t.events = [⟨1, 9⟩] ∧ t.calls = 2 ∧ t.retries = [0] :=
  C4_terminal_attempt_firing c4cfg zeroEnv c4resp ⟨"b", none⟩ .noDelay 9
    rfl rfl rfl (fun _ => rfl) rfl rfl rfl rfl rfl

/-- Scenario-B client: decision `{500: true}`, local handler 7 on 500, once
flag set. -/
def c5cfg : LoopCfg :=
  ⟨"path", "https://api.test/path", "GET", ["GET", "OPTIONS", "HEAD"], false,
   false, ⟨[(500, 7)], [], [], none, none, some true⟩, emptyOn,
   none, none, none, some ⟨[(500, .bool true)], [], []⟩,
   250, 30000, true, none, none, none⟩

/-- Scenario-B transport: 500 on the first attempt, 200 on the second. -/
def c5transport : Nat → TransportR := fun k =>
  if k = 0 then .resp ⟨500, "", none, false, .pok ⟨"e", none⟩⟩
  else .resp ⟨200, "OK", none, false, .pok ⟨"fine", none⟩⟩

/-- C5 counterexample: in scenario B the registered 500 handler fires zero
times, not once — the first attempt is followed by a retry so the once flag
suppresses the firing, and the 200 response has no registered handler. -/
theorem C5_counterexample :
    (requestLoop c5cfg zeroEnv c5transport 0 2).map (fun t => t.events.length)
      = some 0 ∧
    (requestLoop c5cfg zeroEnv c5transport 0 2).map (fun t => t.events.length)
      ≠ some 1 := by
  constructor
  · rfl
  · decide

/-- C5 (amended): in scenario B no handler fires at all during the call
(zero invocations), no handler is invoked for the 200 response, two
transport calls are made and the final result has ok true. -/
theorem C5_amended_behaviour :
    (requestLoop c5cfg zeroEnv c5transport 0 2).map
      (fun t => (t.events, t.calls, resultOk t.result))
      = some ([], 2, some true) := by
  rfl

/-- Client for the C9 run: relative path "users" against a base url. -/
def c9cfg : LoopCfg :=
  ⟨"users", "https://api.example.com/users", "GET", ["GET", "OPTIONS", "HEAD"],
   false, false, emptyOn, emptyOn, none, none, none, none, 250, 30000, true,
   none, none, none⟩

/-- Response for the C9 run: parsed 404, no retry decision configured. -/
def c9resp : Resp := ⟨404, "Not Found", none, false, .pok ⟨"nf", none⟩⟩

/-- C9: the transport is invoked with the built final url, but the thrown
status-failure error carries the raw url argument in its url field — the
two differ at this input, contradicting the claim that the error's url
equals the final url passed to the transport. -/
theorem C9_thrown_url_is_raw_argument :
    (requestLoop c9cfg zeroEnv (fun _ => .resp c9resp) 0 1).map
        (fun t => (t.urls, thrownUrl t.result))
      = some ([c9cfg.finalUrl], some c9cfg.urlArg) ∧
    c9cfg.urlArg ≠ c9cfg.finalUrl := by
  constructor
  · rfl
  · decide

/-- Token values (`types.ts` `Token`): a plain string or a provider
function, the latter modelled by the optional string it resolves to. -/
inductive TokenVal where
  | str (s : String)
  | fn (resolvesTo : Option String)

/-- Initial internal token slot (`url.ts` line 101): holds the config token
only when that token is a plain string. -/
def internalTokenInit (configToken : Option TokenVal) : Option String :=
  match configToken with
  | some (.str s) => some s
  | _ => none

/-- `token.set` from `url.ts`: replaces the internal slot. -/
def tokenSet (t : Option String) (_old : Option String) : Option String := t

/-- `token.clear` from `url.ts`: empties the internal slot. -/
def tokenClear (_old : Option String) : Option String := none

/-- `resolveToken` from `url.ts` lines 137-143: per-call token first (a
provider is invoked), then the internal slot, then the config token (a
provider is invoked). -/
def resolveToken (callToken : Option TokenVal) (internalToken : Option String)
    (configToken : Option TokenVal) : Option String :=
  match callToken with
  | some (.str s) => some s
  | some (.fn r) => r
  | none =>
    match internalToken with
    | some t => some t
    | none =>
      match configToken with
      | some (.str s) => some s
      | some (.fn r) => r
      | none => none

/-- Authorization header decision (`url.ts` lines 127-154): an explicitly
set header wins; otherwise a truthy (nonempty) resolved token is sent as a
bearer value. -/
def authHeader (existing : Option String) (resolved : Option String) : Option String :=
  match existing with
  | some v => some v
  | none =>
    match resolved with
    | some t => if t = "" then none else some ("Bearer " ++ t)
    | none => none

/-- C10: clearing the token does not disable authentication when the client
was configured with a (nonempty) string token.  After `token.clear()`, a
request with no per-call token and no explicit authorization header still
resolves the original config token and sends the bearer header, because
resolution falls through the cleared internal slot to `config.token`. -/
theorem C10_clear_falls_back_to_config_token (s : String) (hs : s ≠ "") :
    tokenClear (internalTokenInit (some (.str s))) = none ∧
    resolveToken none (tokenClear (internalTokenInit (some (.str s))))
        (some (.str s)) = some s ∧
    authHeader none
        (resolveToken none (tokenClear (internalTokenInit (some (.str s))))
          (some (.str s)))
      = some ("Bearer " ++ s) := by
  refine ⟨rfl, rfl, ?_⟩
  simp [authHeader, resolveToken, tokenClear, internalTokenInit, hs]

/-- C10 witness at a concrete config token. -/
theorem C10_witness :
    tokenClear (internalTokenInit (some (.str "jwt0"))) = none ∧
    resolveToken none (tokenClear (internalTokenInit (some (.str "jwt0"))))
        (some (.str "jwt0")) = some "jwt0" ∧
    authHeader none
        (resolveToken none (tokenClear (internalTokenInit (some (.str "jwt0"))))
          (some (.str "jwt0")))
      = some ("Bearer " ++ "jwt0") :=
  C10_clear_falls_back_to_config_token "jwt0" (by decide)

end CallSpec
